import Mathlib

/-!
Verification of the canvas-shapes drawing surface (`src/app/page.tsx`).

The embedding models the page's pure core over exact rationals `ℚ`
(JavaScript numbers are modelled exactly; the spec's "within
floating-point tolerance" becomes exact equality in the model).  The two
functions whose source uses `Math.hypot` (a real square root) —
`distanceToSegment` / `isPointInShape` and the circle radius in
`endDraw` — are modelled over `ℝ` with `Real.sqrt`.

JavaScript operations are modelled as follows:
* `Math.round x`  = `round x` (half-up, toward +∞, as in ECMAScript);
* `x.toFixed(2)` followed by `parseFloat` = `round (x * 100) / 100`
  (ECMAScript `toFixed` picks the larger candidate on ties, i.e. half-up
  for the positive values that occur here);
* `Math.min` / `Math.max` = `min` / `max`;
* the `Set` of selected shape ids = `Finset String`.
-/

namespace CanvasShapes

/-- A 2-D point `{x, y}` in world or screen coordinates. -/
@[ext]
structure Point (α : Type) where
  x : α
  y : α
  deriving DecidableEq, Repr

/-- The tagged shape union of `page.tsx` (`PenShape | RectShape |
CircleShape | LineShape`), polymorphic in the coordinate type so that it
can be instantiated at `ℚ` (exact model) or `ℝ` (where `Math.hypot`
appears in the source). -/
inductive Shape (α : Type) where
  | pen (id : String) (points : List (Point α))
  | rect (id : String) (x y w h : α)
  | circle (id : String) (cx cy r : α)
  | line (id : String) (x1 y1 x2 y2 : α)
  deriving DecidableEq

/-- The `id` field shared by all shape variants (`BaseShape`). -/
def Shape.id : Shape α → String
  | .pen i _ => i
  | .rect i _ _ _ _ => i
  | .circle i _ _ _ => i
  | .line i _ _ _ _ => i

/-- The tool union of `page.tsx`: `"pen" | "rect" | "circle" | "line" | "select"`. -/
inductive Tool where
  | pen | rect | circle | line | select
  deriving DecidableEq

/-- `const GRID_SIZE = 20`. -/
def GRID_SIZE : ℚ := 20

/-- `snap(n) { return Math.round(n / GRID_SIZE) * GRID_SIZE; }` -/
def snap (n : ℚ) : ℚ := (round (n / GRID_SIZE) : ℚ) * GRID_SIZE

/-- `pos`: screen/canvas coordinates to world coordinates,
`{ x: (canvasX - pan.x) / zoom, y: (canvasY - pan.y) / zoom }`. -/
def pos (zoom : ℚ) (pan s : Point ℚ) : Point ℚ :=
  ⟨(s.x - pan.x) / zoom, (s.y - pan.y) / zoom⟩

/-- World to screen coordinates, as applied by the renderer's
`ctx.setTransform(zoom, 0, 0, zoom, pan.x, pan.y)` and solved for in
`handleWheel` (`newPanX = canvasX - worldX * newZoom`):
`screen = world * zoom + pan`. -/
def worldToScreen (zoom : ℚ) (pan w : Point ℚ) : Point ℚ :=
  ⟨w.x * zoom + pan.x, w.y * zoom + pan.y⟩

/-- `parseFloat((v).toFixed(2))`: round to 2 decimal places, half-up. -/
def round2 (q : ℚ) : ℚ := (round (q * 100) : ℚ) / 100

/-- `handleZoomIn = () => setZoom(z => Math.min(parseFloat((z * 1.2).toFixed(2)), 5))`. -/
def handleZoomIn (z : ℚ) : ℚ := min (round2 (z * (12/10))) 5

/-- `handleZoomOut = () => setZoom(z => Math.max(parseFloat((z / 1.2).toFixed(2)), 0.1))`. -/
def handleZoomOut (z : ℚ) : ℚ := max (round2 (z / (12/10))) (1/10)

/-- `handleZoomReset` sets `zoom` to `1` (and pan to the origin). -/
def handleZoomReset : ℚ := 1

/-- `handleWheel`: from the current `zoom`, `pan` and the cursor's canvas
position, compute the world point under the cursor, pick
`delta = e.deltaY > 0 ? 0.9 : 1.1`, clamp the 2-decimal-rounded new zoom
to `[0.1, 5]`, and solve the new pan so the anchor world point stays at
the cursor.  Returns `(newZoom, newPan)`. -/
def handleWheel (zoom : ℚ) (pan cursor : Point ℚ) (deltaY : ℚ) : ℚ × Point ℚ :=
  let worldX := (cursor.x - pan.x) / zoom
  let worldY := (cursor.y - pan.y) / zoom
  let delta : ℚ := if 0 < deltaY then 9/10 else 11/10
  let newZoom := min (max (round2 (zoom * delta)) (1/10)) 5
  (newZoom, ⟨cursor.x - worldX * newZoom, cursor.y - worldY * newZoom⟩)

/-- `moveShapeBy(shape, deltaX, deltaY)`: shift every coordinate of the
shape by the delta; radius of a circle is untouched. -/
def moveShapeBy (shape : Shape ℚ) (deltaX deltaY : ℚ) : Shape ℚ :=
  match shape with
  | .pen i points => .pen i (points.map fun p => ⟨p.x + deltaX, p.y + deltaY⟩)
  | .rect i x y w h => .rect i (x + deltaX) (y + deltaY) w h
  | .circle i cx cy r => .circle i (cx + deltaX) (cy + deltaY) r
  | .line i x1 y1 x2 y2 => .line i (x1 + deltaX) (y1 + deltaY) (x2 + deltaX) (y2 + deltaY)

/-- The axis-aligned bounding box record returned by `getShapeBounds`. -/
@[ext]
structure Bounds where
  x : ℚ
  y : ℚ
  w : ℚ
  h : ℚ
  deriving DecidableEq, Repr

/-- `getShapeBounds(shape)`: `none` only for an empty pen path; pen
bounds from running min/max over the points; rect bounds returned
verbatim from the shape's fields; circle bounds centred on
`(cx, cy)` with side `2r`; line bounds normalised with `min`/`abs`. -/
def getShapeBounds (shape : Shape ℚ) : Option Bounds :=
  match shape with
  | .pen _ points =>
    match points with
    | [] => none
    | p :: rest =>
      let minX := rest.foldl (fun m q => min m q.x) p.x
      let minY := rest.foldl (fun m q => min m q.y) p.y
      let maxX := rest.foldl (fun m q => max m q.x) p.x
      let maxY := rest.foldl (fun m q => max m q.y) p.y
      some ⟨minX, minY, maxX - minX, maxY - minY⟩
  | .rect _ x y w h => some ⟨x, y, w, h⟩
  | .circle _ cx cy r => some ⟨cx - r, cy - r, r * 2, r * 2⟩
  | .line _ x1 y1 x2 y2 =>
    some ⟨min x1 x2, min y1 y2, |x2 - x1|, |y2 - y1|⟩

/-- The zoom invariant of claim C8: in `[0.1, 5]` and equal to an
integer number of hundredths (2 decimal places). -/
def zoomInvariant (v : ℚ) : Prop :=
  1/10 ≤ v ∧ v ≤ 5 ∧ ∃ n : ℤ, v = (n : ℚ) / 100

/-- Whitespace for the tokenizer (JS `\s` and `String.trim`, restricted
to the whitespace that can occur in the claims' inputs). -/
def isSpaceChar (c : Char) : Bool := c.isWhitespace

/-- JS `String.prototype.trim` on a character list. -/
def trimChars (cs : List Char) : List Char :=
  ((cs.dropWhile isSpaceChar).reverse.dropWhile isSpaceChar).reverse

/-- JS `String.prototype.split` with a single-character delimiter class:
the (possibly empty) segments between delimiter characters. -/
def splitCharList (p : Char → Bool) : List Char → List (List Char)
  | [] => [[]]
  | c :: rest =>
    match splitCharList p rest with
    | [] => [[c]]
    | s :: ss => if p c then [] :: s :: ss else (c :: s) :: ss

/-- Decimal digit accumulator for `parseFloat`. -/
def digitsVal (ds : List Char) : ℕ :=
  ds.foldl (fun acc c => 10 * acc + (c.toNat - 48)) 0

/-- `parseFloat` on a token, modelled for plain decimals: optional sign,
integer digits, optional fractional digits.  A token with no digits (JS
`NaN`) is modelled as 0 and exponent notation as its mantissa prefix;
no proved statement depends on those cases. -/
def parseFloatChars (cs : List Char) : ℚ :=
  let sgnRest : ℚ × List Char :=
    match cs with
    | '-' :: t => (-1, t)
    | '+' :: t => (1, t)
    | _ => (1, cs)
  let ip := sgnRest.2.takeWhile Char.isDigit
  let rest2 := sgnRest.2.dropWhile Char.isDigit
  let fp : List Char :=
    match rest2 with
    | '.' :: t => t.takeWhile Char.isDigit
    | _ => []
  sgnRest.1 * ((digitsVal ip : ℚ) + (digitsVal fp : ℚ) / 10 ^ fp.length)

/-- The SVG path command letters of `parsePath`'s regexes
`[MmLlHhVvCcSsQqTtAaZz]`. -/
def pathCmdChars : List Char :=
  ['M', 'm', 'L', 'l', 'H', 'h', 'V', 'v', 'C', 'c', 'S', 's', 'Q', 'q',
   'T', 't', 'A', 'a', 'Z', 'z']

def isPathCmd (c : Char) : Bool := pathCmdChars.contains c

/-- `(values[i] || "").trim().split(/[\s,]+/).filter(s => s).map(parseFloat)`
(splitting on each delimiter and dropping empty tokens equals splitting
on delimiter runs and dropping empty tokens). -/
def parseNums (cs : List Char) : List ℚ :=
  ((splitCharList (fun c => isSpaceChar c || c == ',') (trimChars cs)).filter
      (fun s => s ≠ [])).map parseFloatChars

/-- The command loop of `parsePath`: `M`/`m` and `L`/`l` with at least
two numbers move the current point (absolutely, or relatively for the
lowercase forms) and emit it; every other command contributes no point
and only consumes its value slot (`i++` happens for every command). -/
def parsePathGo : List Char → List (List Char) → ℕ → Point ℚ → List (Point ℚ)
  | [], _, _, _ => []
  | cmd :: cmds, values, i, current =>
    let nums := parseNums (values.getD i [])
    if cmd = 'M' ∨ cmd = 'm' ∨ cmd = 'L' ∨ cmd = 'l' then
      if 2 ≤ nums.length then
        let c : Point ℚ :=
          if cmd = 'm' ∨ cmd = 'l' then
            ⟨current.x + nums.getD 0 0, current.y + nums.getD 1 0⟩
          else
            ⟨nums.getD 0 0, nums.getD 1 0⟩
        c :: parsePathGo cmds values (i + 1) c
      else parsePathGo cmds values (i + 1) current
    else parsePathGo cmds values (i + 1) current

/-- `parsePath(d)`: command letters via `d.match(...)`, value slots via
`d.split(...)` keeping only segments with non-blank content, then the
command loop starting from `(0, 0)`. -/
def parsePath (d : String) : List (Point ℚ) :=
  let commands := d.toList.filter isPathCmd
  let values := (splitCharList isPathCmd d.toList).filter (fun s => trimChars s ≠ [])
  parsePathGo commands values 0 ⟨0, 0⟩

/-- The `path` case of `parseSVGElement`: a Pen shape from `parsePath`,
or `null` when fewer than 2 points result (the fresh id is passed in,
standing for `generateId()`). -/
def parseSVGPath (id : String) (d : String) : Option (Shape ℚ) :=
  let pathPoints := parsePath d
  if pathPoints.length < 2 then none else some (Shape.pen id pathPoints)

/-- `Math.hypot(x, y)`. -/
noncomputable def hypot (x y : ℝ) : ℝ := Real.sqrt (x ^ 2 + y ^ 2)

/-- `snap` over the reals, for the coordinates fed to `endDraw`. -/
noncomputable def snapR (n : ℝ) : ℝ := (round (n / 20) : ℝ) * 20

/-- `distanceToSegment(p, a, b)`: distance from `p` to its projection
onto segment `ab`, the projection parameter clamped to `[0, 1]`;
degenerate `a = b` (zero length) falls back to the point distance. -/
noncomputable def distanceToSegment (p a b : Point ℝ) : ℝ :=
  let dx := b.x - a.x
  let dy := b.y - a.y
  let length := hypot dx dy
  if length = 0 then hypot (p.x - a.x) (p.y - a.y)
  else
    let t := max 0 (min 1 (((p.x - a.x) * dx + (p.y - a.y) * dy) / (length * length)))
    hypot (p.x - (a.x + t * dx)) (p.y - (a.y + t * dy))

/-- The pen segment loop of `isPointInShape`: the source iterates
`i = 0 .. points.length - 2` over consecutive pairs
`(points[i], points[i+1])`; the recursion visits exactly those pairs, so
no index outside the list is ever read, and with fewer than two points
there is no segment at all. -/
def penSegHit (threshold : ℝ) (q : Point ℝ) : List (Point ℝ) → Prop
  | p1 :: p2 :: rest => distanceToSegment q p1 p2 < threshold ∨ penSegHit threshold q (p2 :: rest)
  | _ => False

/-- `isPointInShape(point, shape)` with `hitThreshold = 10 / zoom`,
modelled as a proposition because the source's comparisons are on real
(floating-point) values. -/
def isPointInShape (zoom : ℝ) (point : Point ℝ) : Shape ℝ → Prop
  | .pen _ points => penSegHit (10 / zoom) point points
  | .rect _ x y w h =>
      x ≤ point.x ∧ point.x ≤ x + w ∧ y ≤ point.y ∧ point.y ≤ y + h
  | .circle _ cx cy r =>
      |hypot (point.x - cx) (point.y - cy) - r| < 10 / zoom ∨
        hypot (point.x - cx) (point.y - cy) < r
  | .line _ x1 y1 x2 y2 => distanceToSegment point ⟨x1, y1⟩ ⟨x2, y2⟩ < 10 / zoom

/-- `endDraw` commit logic, given the tool, the fresh id
(`generateId()`), the accumulated pen buffer, the snapped gesture start
and the raw world position of the pointer-up event: a Pen shape is
appended only when the buffer holds more than one point; rect, circle
and line always append a shape built from `start` and the snapped
current point; `select` (and a too-short pen) appends nothing. -/
noncomputable def endDraw (tool : Tool) (id : String)
    (currentPenPoints : List (Point ℝ)) (start p : Point ℝ)
    (shapes : List (Shape ℝ)) : List (Shape ℝ) :=
  let curr : Point ℝ := ⟨snapR p.x, snapR p.y⟩
  match tool with
  | .pen =>
    if 1 < currentPenPoints.length then shapes ++ [Shape.pen id currentPenPoints]
    else shapes
  | .select => shapes
  | .rect =>
    shapes ++ [Shape.rect id start.x start.y (curr.x - start.x) (curr.y - start.y)]
  | .circle =>
    shapes ++ [Shape.circle id start.x start.y (hypot (curr.x - start.x) (curr.y - start.y))]
  | .line => shapes ++ [Shape.line id start.x start.y curr.x curr.y]

/-- The `handleKeyDown` effect:
`if (e.key === "Delete" && selectedShapeIds.size > 0) { setShapes(prev =>
prev.filter(s => !selectedShapeIds.has(s.id))); setSelectedShapeIds(new Set()); }`.
Returns the new `(shapes, selectedShapeIds)` pair. -/
def handleKeyDown (key : String) (shapes : List (Shape ℚ))
    (selectedShapeIds : Finset String) : List (Shape ℚ) × Finset String :=
  if key = "Delete" ∧ 0 < selectedShapeIds.card then
    (shapes.filter (fun s => s.id ∉ selectedShapeIds), ∅)
  else
    (shapes, selectedShapeIds)

end CanvasShapes

namespace CanvasShapes

/-- Claim C9: `snap` is idempotent — `snap (snap x) = snap x` for every
rational `x`, where `snap` rounds to the nearest multiple of the 20-unit
grid. -/
theorem snap_idempotent (x : ℚ) : snap (snap x) = snap x := by
  unfold snap GRID_SIZE
  rw [mul_div_cancel_right₀ _ (by norm_num : (20:ℚ) ≠ 0), round_intCast]

/-- Claim C3: for every zoom `z > 0`, pan `p` and screen point `s`,
mapping to world coordinates by `world = (s - p) / z` (`pos`) and back
by `screen = world * z + p` (`worldToScreen`) returns `s` exactly. -/
theorem screen_world_round_trip (z : ℚ) (p s : Point ℚ) (hz : 0 < z) :
    worldToScreen z p (pos z p s) = s := by
  have hne : z ≠ 0 := ne_of_gt hz
  unfold worldToScreen pos
  ext <;> simp <;> field_simp

/-- Witness for C3 at `z = 2`, `p = (3, 4)`, `s = (10, 20)`. -/
theorem screen_world_round_trip_witness :
    (0:ℚ) < 2 ∧
      worldToScreen 2 ⟨3, 4⟩ (pos 2 ⟨3, 4⟩ ⟨10, 20⟩) = (⟨10, 20⟩ : Point ℚ) :=
  ⟨by norm_num, screen_world_round_trip 2 ⟨3, 4⟩ ⟨10, 20⟩ (by norm_num)⟩

/-- Claim C4: translating any shape by `(dx, dy)` with `moveShapeBy` and
then by `(-dx, -dy)` reconstructs the original shape exactly (circle
radius untouched by either translation). -/
theorem moveShapeBy_inverse (s : Shape ℚ) (dx dy : ℚ) :
    moveShapeBy (moveShapeBy s dx dy) (-dx) (-dy) = s := by
  cases s with
  | pen i points =>
    simp only [moveShapeBy, List.map_map, Shape.pen.injEq, true_and]
    have hcomp : ((fun p : Point ℚ => (⟨p.x + -dx, p.y + -dy⟩ : Point ℚ)) ∘
        fun p : Point ℚ => (⟨p.x + dx, p.y + dy⟩ : Point ℚ)) = id := by
      funext p
      ext <;> simp
    rw [hcomp, List.map_id]
  | rect i x y w h => simp [moveShapeBy]
  | circle i cx cy r => simp [moveShapeBy]
  | line i x1 y1 x2 y2 => simp [moveShapeBy]

/-- Claim C1: one wheel-zoom step picks the new zoom by multiplying by
0.9 (scroll down) or 1.1 (scroll up), rounding to 2 decimals and
clamping to `[0.1, 5]`, and recomputes pan so that the world point that
was under the cursor maps back to the same screen pixel (exactly, in the
rational model). -/
theorem handleWheel_anchor_preserving (zoom deltaY : ℚ) (pan cursor : Point ℚ)
    (h1 : 1/10 ≤ zoom) (h2 : zoom ≤ 5) :
    (handleWheel zoom pan cursor deltaY).1 =
      min (max (round2 (zoom * (if 0 < deltaY then 9/10 else 11/10))) (1/10)) 5 ∧
    worldToScreen (handleWheel zoom pan cursor deltaY).1
        (handleWheel zoom pan cursor deltaY).2 (pos zoom pan cursor) = cursor := by
  refine ⟨rfl, ?_⟩
  unfold handleWheel worldToScreen pos
  ext <;> simp

/-- Witness for C1 at `zoom = 1`, `pan = (0,0)`, cursor `(100, 50)`,
`deltaY = 1` (scroll down, factor 0.9). -/
theorem handleWheel_anchor_preserving_witness :
    (1:ℚ)/10 ≤ 1 ∧ (1:ℚ) ≤ 5 ∧
    ((handleWheel 1 ⟨0, 0⟩ ⟨100, 50⟩ 1).1 =
        min (max (round2 (1 * (if (0:ℚ) < 1 then 9/10 else 11/10))) (1/10)) 5 ∧
      worldToScreen (handleWheel 1 ⟨0, 0⟩ ⟨100, 50⟩ 1).1
          (handleWheel 1 ⟨0, 0⟩ ⟨100, 50⟩ 1).2 (pos 1 ⟨0, 0⟩ ⟨100, 50⟩) =
        (⟨100, 50⟩ : Point ℚ)) :=
  ⟨by norm_num, by norm_num,
    handleWheel_anchor_preserving 1 1 ⟨0, 0⟩ ⟨100, 50⟩ (by norm_num) (by norm_num)⟩

theorem intCast_div_min (a b : ℤ) :
    min ((a : ℚ) / 100) ((b : ℚ) / 100) = ((min a b : ℤ) : ℚ) / 100 := by
  rcases le_total a b with h | h
  · have h2 : (a : ℚ) ≤ b := by exact_mod_cast h
    rw [min_eq_left h, min_eq_left (by gcongr)]
  · have h2 : (b : ℚ) ≤ a := by exact_mod_cast h
    rw [min_eq_right h, min_eq_right (by gcongr)]

theorem intCast_div_max (a b : ℤ) :
    max ((a : ℚ) / 100) ((b : ℚ) / 100) = ((max a b : ℤ) : ℚ) / 100 := by
  rcases le_total a b with h | h
  · have h2 : (a : ℚ) ≤ b := by exact_mod_cast h
    rw [max_eq_right h, max_eq_right (by gcongr)]
  · have h2 : (b : ℚ) ≤ a := by exact_mod_cast h
    rw [max_eq_left h, max_eq_left (by gcongr)]

theorem le_round_of_le (y : ℚ) (m : ℤ) (h : (m : ℚ) ≤ y) : m ≤ round y := by
  rw [round_eq]
  exact Int.le_floor.mpr (by push_cast; linarith)

theorem round_le_of_lt (y : ℚ) (m : ℤ) (h : y + 1/2 < (m : ℚ) + 1) : round y ≤ m := by
  rw [round_eq]
  have hfl : ⌊y + 1/2⌋ < m + 1 :=
    Int.floor_lt.mpr (by push_cast; linarith)
  omega

/-- Claim C8: from any zoom in `[0.1, 5]`, each zoom operation
(zoom-in ×1.2, zoom-out ÷1.2, wheel zoom ×0.9/×1.1, reset) yields a zoom
still in `[0.1, 5]` that is an exact 2-decimal value (reset gives 1). -/
theorem zoom_ops_clamped_2dp (z deltaY : ℚ) (pan cursor : Point ℚ)
    (h1 : 1/10 ≤ z) (h2 : z ≤ 5) :
    zoomInvariant (handleZoomIn z) ∧ zoomInvariant (handleZoomOut z) ∧
    zoomInvariant ((handleWheel z pan cursor deltaY).1) ∧ handleZoomReset = 1 := by
  have h500 : (5 : ℚ) = ((500 : ℤ) : ℚ) / 100 := by norm_num
  have h10 : (1 : ℚ)/10 = ((10 : ℤ) : ℚ) / 100 := by norm_num
  refine ⟨⟨?_, ?_, ?_⟩, ⟨?_, ?_, ?_⟩, ⟨?_, ?_, ?_⟩, rfl⟩
  · -- zoom-in lower bound
    refine le_min ?_ (by norm_num)
    unfold round2
    have hr : (12 : ℤ) ≤ round (z * (12/10) * 100) :=
      le_round_of_le _ 12 (by push_cast; linarith)
    have h2r : ((12 : ℤ) : ℚ) ≤ (round (z * (12/10) * 100) : ℚ) := by exact_mod_cast hr
    calc (1 : ℚ)/10 ≤ ((12 : ℤ) : ℚ) / 100 := by norm_num
    _ ≤ (round (z * (12/10) * 100) : ℚ) / 100 := by gcongr
  · exact min_le_right _ _
  · unfold handleZoomIn round2
    rw [h500, intCast_div_min]
    exact ⟨_, rfl⟩
  · exact le_max_right _ _
  · -- zoom-out upper bound
    refine max_le ?_ (by norm_num)
    unfold round2
    have hr : round (z / (12/10) * 100) ≤ (500 : ℤ) :=
      round_le_of_lt _ 500 (by push_cast; linarith)
    have h2r : (round (z / (12/10) * 100) : ℚ) ≤ ((500 : ℤ) : ℚ) := by exact_mod_cast hr
    calc (round (z / (12/10) * 100) : ℚ) / 100 ≤ ((500 : ℤ) : ℚ) / 100 := by gcongr
    _ ≤ 5 := by norm_num
  · unfold handleZoomOut round2
    rw [h10, intCast_div_max]
    exact ⟨_, rfl⟩
  · -- wheel zoom bounds: the clamp alone gives them
    exact le_min (le_max_right _ _) (by norm_num)
  · exact min_le_right _ _
  · show ∃ n : ℤ, min (max (round2 (z * (if 0 < deltaY then 9/10 else 11/10))) (1/10)) 5 =
      (n : ℚ) / 100
    unfold round2
    rw [h10, h500, intCast_div_max, intCast_div_min]
    exact ⟨_, rfl⟩

/-- Witness for C8 at `z = 1`, `deltaY = 1`, `pan = cursor = (0,0)`. -/
theorem zoom_ops_clamped_2dp_witness :
    (1:ℚ)/10 ≤ 1 ∧ (1:ℚ) ≤ 5 ∧
    (zoomInvariant (handleZoomIn 1) ∧ zoomInvariant (handleZoomOut 1) ∧
      zoomInvariant ((handleWheel 1 ⟨0, 0⟩ ⟨0, 0⟩ 1).1) ∧ handleZoomReset = 1) :=
  ⟨by norm_num, by norm_num,
    zoom_ops_clamped_2dp 1 1 ⟨0, 0⟩ ⟨0, 0⟩ (by norm_num) (by norm_num)⟩

/-- Claim C2 at the failing input: `getShapeBounds` returns a Rect's
`w`/`h` verbatim, so a drag-created Rect with `w = h = -10` yields a
bounding box with negative `w` whose `(x, y)` is not the minimum corner
of the spanned rectangle, namely `(-10, -10)` with sides `10`. -/
theorem getShapeBounds_rect_verbatim :
    getShapeBounds (Shape.rect "r1" 0 0 (-10) (-10)) = some ⟨0, 0, -10, -10⟩ ∧
    ((-10 : ℚ) < 0) ∧
    getShapeBounds (Shape.rect "r1" 0 0 (-10) (-10)) ≠ some ⟨-10, -10, 10, 10⟩ := by
  refine ⟨rfl, by norm_num, by decide⟩

/-- Claim C5: the Delete key with a non-empty selection removes exactly
the shapes whose ids are selected (keeping every other shape and the
relative order, as a sublist with unchanged elements) and clears the
selection; with an empty selection nothing changes. -/
theorem delete_key_effect (shapes : List (Shape ℚ)) (sel : Finset String) :
    (sel.Nonempty →
      (handleKeyDown "Delete" shapes sel).1 = shapes.filter (fun s => s.id ∉ sel) ∧
      List.Sublist (handleKeyDown "Delete" shapes sel).1 shapes ∧
      (∀ s ∈ shapes, (s ∈ (handleKeyDown "Delete" shapes sel).1 ↔ s.id ∉ sel)) ∧
      (handleKeyDown "Delete" shapes sel).2 = ∅) ∧
    handleKeyDown "Delete" shapes (∅ : Finset String) = (shapes, ∅) := by
  constructor
  · intro hne
    have hcard : 0 < sel.card := Finset.card_pos.mpr hne
    have hcond : ("Delete" = "Delete" ∧ 0 < sel.card) := ⟨rfl, hcard⟩
    have hfst : (handleKeyDown "Delete" shapes sel).1 =
        shapes.filter (fun s => s.id ∉ sel) := by
      unfold handleKeyDown
      rw [if_pos hcond]
    refine ⟨hfst, ?_, ?_, ?_⟩
    · rw [hfst]; exact List.filter_sublist shapes
    · intro s hs
      rw [hfst]
      simp [List.mem_filter, hs]
    · unfold handleKeyDown
      rw [if_pos hcond]
  · unfold handleKeyDown
    rw [if_neg (by simp)]

/-- Witness for C5: scene with two rects, selection `{"a"}`. -/
theorem delete_key_effect_witness :
    (handleKeyDown "Delete" [Shape.rect "a" 0 0 1 1, Shape.rect "b" 2 2 1 1]
        {"a"}).1 =
      List.filter (fun s => s.id ∉ ({"a"} : Finset String))
        [Shape.rect "a" 0 0 1 1, Shape.rect "b" 2 2 1 1] ∧
    List.Sublist
      (handleKeyDown "Delete" [Shape.rect "a" 0 0 1 1, Shape.rect "b" 2 2 1 1]
        {"a"}).1
      [Shape.rect "a" 0 0 1 1, Shape.rect "b" 2 2 1 1] ∧
    (∀ s ∈ [Shape.rect "a" 0 0 1 1, Shape.rect "b" 2 2 1 1],
      (s ∈ (handleKeyDown "Delete"
          [Shape.rect "a" 0 0 1 1, Shape.rect "b" 2 2 1 1] {"a"}).1 ↔
        s.id ∉ ({"a"} : Finset String))) ∧
    (handleKeyDown "Delete" [Shape.rect "a" 0 0 1 1, Shape.rect "b" 2 2 1 1]
        {"a"}).2 = ∅ :=
  (delete_key_effect [Shape.rect "a" 0 0 1 1, Shape.rect "b" 2 2 1 1] {"a"}).1
    (Finset.singleton_nonempty "a")

/-- Claim C6: parsing `"M0,0 L10,10 L20,0 Z"` yields a Pen shape with
exactly the three points `(0,0), (10,10), (20,0)` — `Z` adds no closing
point; relative `m`/`l` commands offset from the current point; and a
path producing fewer than 2 points yields no shape (e.g. `"M5,5"`). -/
theorem parsePath_example (id : String) :
    parseSVGPath id "M0,0 L10,10 L20,0 Z" =
      some (Shape.pen id [⟨0, 0⟩, ⟨10, 10⟩, ⟨20, 0⟩]) ∧
    parsePath "m1,2 l3,4" = [⟨1, 2⟩, ⟨4, 6⟩] ∧
    (∀ d : String, (parsePath d).length < 2 → parseSVGPath id d = none) ∧
    parseSVGPath id "M5,5" = none := by
  have h1 : parsePath "M0,0 L10,10 L20,0 Z" = [⟨0, 0⟩, ⟨10, 10⟩, ⟨20, 0⟩] := by
    simp +decide [parsePath, parsePathGo, parseNums, parseFloatChars, splitCharList,
      trimChars, digitsVal, isPathCmd, pathCmdChars, isSpaceChar]
  have h2 : parsePath "M5,5" = [⟨5, 5⟩] := by
    simp +decide [parsePath, parsePathGo, parseNums, parseFloatChars, splitCharList,
      trimChars, digitsVal, isPathCmd, pathCmdChars, isSpaceChar]
  have h3 : parsePath "m1,2 l3,4" = [⟨1, 2⟩, ⟨4, 6⟩] := by
    simp +decide [parsePath, parsePathGo, parseNums, parseFloatChars, splitCharList,
      trimChars, digitsVal, isPathCmd, pathCmdChars, isSpaceChar]
    norm_num
  refine ⟨by simp [parseSVGPath, h1], h3, ?_, by simp [parseSVGPath, h2]⟩
  intro d hd
  simp [parseSVGPath, hd]

/-- Witness for C6 with the fresh id `"w1"`. -/
theorem parsePath_example_witness :
    parseSVGPath "w1" "M0,0 L10,10 L20,0 Z" =
      some (Shape.pen "w1" [⟨0, 0⟩, ⟨10, 10⟩, ⟨20, 0⟩]) ∧
    (parsePath "M5,5").length < 2 ∧ parseSVGPath "w1" "M5,5" = none :=
  ⟨(parsePath_example "w1").1, by decide,
    (parsePath_example "w1").2.2.1 "M5,5" (by decide)⟩

/-- Claim C7: on pointer-up, a Pen shape is appended iff the buffer has
at least 2 points (a single recorded point leaves the scene unchanged),
while rect/circle/line always append exactly one shape. -/
theorem endDraw_commit_rule (tool : Tool) (id : String)
    (currentPenPoints : List (Point ℝ)) (start p : Point ℝ)
    (shapes : List (Shape ℝ)) :
    (tool = .pen → 2 ≤ currentPenPoints.length →
      endDraw tool id currentPenPoints start p shapes =
        shapes ++ [Shape.pen id currentPenPoints]) ∧
    (tool = .pen → currentPenPoints.length < 2 →
      endDraw tool id currentPenPoints start p shapes = shapes) ∧
    (tool = .rect ∨ tool = .circle ∨ tool = .line →
      ∃ s : Shape ℝ,
        endDraw tool id currentPenPoints start p shapes = shapes ++ [s]) := by
  refine ⟨?_, ?_, ?_⟩
  · rintro rfl h
    have h1 : 1 < currentPenPoints.length := h
    simp [endDraw, h1]
  · rintro rfl h
    have h1 : ¬ 1 < currentPenPoints.length := by omega
    simp [endDraw, h1]
  · rintro (rfl | rfl | rfl) <;> exact ⟨_, rfl⟩

/-- Witness for C7: a 2-point pen commits, a 1-point pen does not, and
the rect tool always commits one shape. -/
theorem endDraw_commit_rule_witness :
    endDraw Tool.pen "p1" [⟨0, 0⟩, ⟨20, 20⟩] ⟨0, 0⟩ ⟨0, 0⟩ [] =
      [] ++ [Shape.pen "p1" [⟨0, 0⟩, ⟨20, 20⟩]] ∧
    endDraw Tool.pen "p2" [⟨0, 0⟩] ⟨0, 0⟩ ⟨0, 0⟩ [] = [] ∧
    ∃ s : Shape ℝ, endDraw Tool.rect "r2" [] ⟨0, 0⟩ ⟨0, 0⟩ [] = [] ++ [s] :=
  ⟨(endDraw_commit_rule Tool.pen "p1" [⟨0, 0⟩, ⟨20, 20⟩] ⟨0, 0⟩ ⟨0, 0⟩ []).1 rfl
      (by simp),
    (endDraw_commit_rule Tool.pen "p2" [⟨0, 0⟩] ⟨0, 0⟩ ⟨0, 0⟩ []).2.1 rfl
      (by simp),
    (endDraw_commit_rule Tool.rect "r2" [] ⟨0, 0⟩ ⟨0, 0⟩ []).2.2 (Or.inl rfl)⟩

/-- Claim C10: for a pen shape whose point list has fewer than 2 entries
(empty, or the importer's single-point edge case), `isPointInShape` is
false for every query point and zoom; the segment recursion visits only
consecutive pairs, so no out-of-bounds point is ever read. -/
theorem isPointInShape_degenerate_pen (zoom : ℝ) (q : Point ℝ) (id : String)
    (points : List (Point ℝ)) (h : points.length < 2) :
    ¬ isPointInShape zoom q (Shape.pen id points) := by
  cases points with
  | nil => simp [isPointInShape, penSegHit]
  | cons p1 rest =>
    cases rest with
    | nil => simp [isPointInShape, penSegHit]
    | cons p2 rest2 => simp at h; omega

/-- Witness for C10: a one-point pen shape is never hit. -/
theorem isPointInShape_degenerate_pen_witness :
    ([⟨(1 : ℝ), 1⟩] : List (Point ℝ)).length < 2 ∧
      ¬ isPointInShape 1 ⟨0, 0⟩ (Shape.pen "p" [⟨1, 1⟩]) :=
  ⟨by simp, isPointInShape_degenerate_pen 1 ⟨0, 0⟩ "p" [⟨1, 1⟩] (by simp)⟩

end CanvasShapes
